import Mathlib

/-!
Verification of the collector membership-watch subsystem
(`cmd/otel-allocator/collector` package: `Client.Watch`, `restartWatch`,
`runWatch`, `Close`).

The Go code is embedded shallowly:
* the Go `map[string]*allocation.Collector` becomes an association list
  `CollectorMap` with Go-map update/delete semantics;
* the nondeterministic `select` in `runWatch` is resolved by an explicit
  input trace of `Wake` items (which wake source fired, in order);
* a watch session is a `SessionInput`: either the `Watch` API call fails,
  or it succeeds and delivers a trace of wakes;
* `os.Exit(1)` on bootstrap-list failure, `return nil`, and a still-blocked
  loop are distinguished by `WatchOutcome`;
* every `fn(collectorMap)` callback invocation and every gauge update is
  recorded in the result structures, in program order.
-/

namespace AllocatorWatch

/-- Modelled from the spec: `allocation.Collector` (package `allocation` is
not among the provided sources). The spec requires only the stable identity:
`Collector` carries a `name` and `allocation.NewCollector(name)` builds
`Collector{name}`. -/
structure Collector where
  name : String
deriving DecidableEq, Repr

/-- Modelled from the spec: `allocation.NewCollector(name)` returns a
collector identified by `name`. -/
def NewCollector (name : String) : Collector := ⟨name⟩

/-- A pod as consumed by this subsystem: its name (identity key) and the
deletion timestamp (`none` = no deletion marker). -/
structure Pod where
  name : String
  deletionTimestamp : Option Nat
deriving DecidableEq, Repr

/-- The Go `map[string]*allocation.Collector`, embedded as an association
list with unique-key (first-match) semantics. -/
abbrev CollectorMap := List (String × Collector)

/-- Go map update `m[k] = v`: overwrite the entry for `k` if present,
otherwise add one. -/
def mapInsert : CollectorMap → String → Collector → CollectorMap
  | [], k, v => [(k, v)]
  | e :: rest, k, v => if e.1 = k then (k, v) :: rest else e :: mapInsert rest k v

/-- Go `delete(m, k)`: remove the entry for `k`. -/
def mapErase : CollectorMap → String → CollectorMap
  | [], _ => []
  | e :: rest, k => if e.1 = k then mapErase rest k else e :: mapErase rest k

/-- Go map read `m[k]`: the collector stored under `k`, if any. -/
def mapLookup : CollectorMap → String → Option Collector
  | [], _ => none
  | e :: rest, k => if e.1 = k then some e.2 else mapLookup rest k

lemma mapLookup_mapInsert (m : CollectorMap) (k : String) (v : Collector)
    (q : String) :
    mapLookup (mapInsert m k v) q = if q = k then some v else mapLookup m q := by
  induction m with
  | nil =>
    by_cases h : q = k
    · simp [mapInsert, mapLookup, h]
    · have h2 : ¬ k = q := fun hh => h hh.symm
      simp [mapInsert, mapLookup, h, h2]
  | cons e rest ih =>
    by_cases he : e.1 = k
    · by_cases hq : q = k
      · simp [mapInsert, mapLookup, he, hq]
      · have hkq : ¬ k = q := fun hh => hq hh.symm
        have heq : ¬ e.1 = q := by rw [he]; exact hkq
        simp [mapInsert, mapLookup, he, hq, hkq, heq]
    · by_cases hq : e.1 = q
      · have hqk : ¬ q = k := fun hh => he (hq.trans hh)
        simp [mapInsert, mapLookup, he, hq, hqk]
      · simp [mapInsert, mapLookup, he, hq, ih]

lemma mapLookup_mapErase (m : CollectorMap) (k : String) (q : String) :
    mapLookup (mapErase m k) q = if q = k then none else mapLookup m q := by
  induction m with
  | nil => simp [mapErase, mapLookup]
  | cons e rest ih =>
    by_cases he : e.1 = k
    · by_cases hq : q = k
      · subst hq
        simp only [mapErase, he, if_pos rfl, if_true]
        simpa using ih
      · have hkq : ¬ k = q := fun hh => hq hh.symm
        simp [mapErase, mapLookup, he, hq, hkq, ih]
    · by_cases hq : e.1 = q
      · have hqk : ¬ q = k := fun hh => he (hq.trans hh)
        simp [mapErase, mapLookup, he, hq, hqk]
      · simp [mapErase, mapLookup, he, hq, ih]

/-- `watch.EventType` of the Kubernetes watch package: the five lifecycle
event kinds a watch stream can deliver. -/
inductive EventType where
  | Added
  | Modified
  | Deleted
  | Bookmark
  | Error
deriving DecidableEq, Repr

/-- The runtime object attached to a watch event: either a pod (the type
assertion `event.Object.(*v1.Pod)` succeeds) or something else. -/
inductive EventObject where
  | pod (p : Pod)
  | nonPod
deriving DecidableEq, Repr

/-- A `watch.Event`: its type and its object. -/
structure Event where
  type : EventType
  object : EventObject
deriving DecidableEq, Repr

/-- One resolution of the `select` in `runWatch`: which wake source fired.
A trace of `Wake`s is the external input driving one `runWatch` call. -/
inductive Wake where
  | closeSignal
  | ctxDone
  | chanClosed
  | ev (e : Event)
deriving DecidableEq, Repr

/-- The mutation performed by the `switch event.Type` in `runWatch`:
`Added` inserts/overwrites the entry keyed by the pod name, `Deleted`
removes it, every other type leaves the map unchanged. -/
def applyEvent (m : CollectorMap) (t : EventType) (p : Pod) : CollectorMap :=
  match t with
  | .Added => mapInsert m p.name (NewCollector p.name)
  | .Deleted => mapErase m p.name
  | _ => m

/-- Observable outcome of one `runWatch` call: the final map, the gauge
values written (one per loop iteration, in order), the arguments of the
`fn` callback invocations (in order), and the returned string — `none`
when the trace ran out with the loop still blocked in `select`. -/
structure RunResult where
  map : CollectorMap
  gauges : List Nat
  calls : List CollectorMap
  signal : Option String
deriving DecidableEq, Repr

/-- `runWatch` from the source: set the gauge, select on close / context /
event channel; close returns "kubernetes client closed", context-done and
channel-closed and a non-pod object return "", a pod event mutates the map
per `applyEvent` and then invokes `fn`. -/
def runWatch (m : CollectorMap) : List Wake → RunResult
  | [] => ⟨m, [m.length], [], none⟩
  | Wake.closeSignal :: _ => ⟨m, [m.length], [], some "kubernetes client closed"⟩
  | Wake.ctxDone :: _ => ⟨m, [m.length], [], some ""⟩
  | Wake.chanClosed :: _ => ⟨m, [m.length], [], some ""⟩
  | Wake.ev ⟨_, EventObject.nonPod⟩ :: _ => ⟨m, [m.length], [], some ""⟩
  | Wake.ev ⟨t, EventObject.pod p⟩ :: rest =>
    let m2 := applyEvent m t p
    let r := runWatch m2 rest
    ⟨r.map, m.length :: r.gauges, m2 :: r.calls, r.signal⟩

/-- External input of one `restartWatch` call: either the `Watch` API call
fails, or it succeeds and the session delivers a trace of wakes. `start`
is the session's start time (nanoseconds), the moment
`context.WithTimeout` derives the session context. -/
inductive SessionInput where
  | watchFail (start : Nat)
  | session (start : Nat) (wakes : List Wake)
deriving DecidableEq, Repr

/-- Start time of a session input. -/
def SessionInput.start : SessionInput → Nat
  | .watchFail s => s
  | .session s _ => s

/-- Go `time.Second` in nanoseconds. -/
def timeSecond : Nat := 1000000000

/-- Go `time.Minute` in nanoseconds. -/
def timeMinute : Nat := 60 * timeSecond

/-- `watcherTimeout = 15 * time.Minute` from the source. -/
def watcherTimeout : Nat := 15 * timeMinute

/-- Observable outcome of one `restartWatch` call: the deadline of the
session context derived by `context.WithTimeout` (computed before the
subscription is attempted), whether the caller should open another session
(`none` = the call has not returned yet, the trace ran out), the final
map, and the callback invocations. -/
structure SessionResult where
  ctxDeadline : Nat
  again : Option Bool
  map : CollectorMap
  calls : List CollectorMap
deriving DecidableEq, Repr

/-- `restartWatch` from the source: derive the 15-minute session context,
open the watch subscription (on failure return `false`), run `runWatch`;
a non-empty returned message yields `false`, the empty message `true`. -/
def restartWatch (m : CollectorMap) : SessionInput → SessionResult
  | .watchFail s => ⟨s + watcherTimeout, some false, m, []⟩
  | .session s ws =>
    let r := runWatch m ws
    match r.signal with
    | none => ⟨s + watcherTimeout, none, r.map, r.calls⟩
    | some msg =>
      if msg ≠ "" then ⟨s + watcherTimeout, some false, r.map, r.calls⟩
      else ⟨s + watcherTimeout, some true, r.map, r.calls⟩

/-- How a `Watch` call ends: `processExit` models `os.Exit(1)`,
`returned err` models `return err` (the source only ever returns `nil`),
`stillRunning` means the supplied input traces ran out with the loop
still live. -/
inductive WatchOutcome where
  | processExit
  | returned (err : Option String)
  | stillRunning
deriving DecidableEq, Repr

/-- Observable outcome of the session loop in `Watch`. -/
structure LoopResult where
  outcome : WatchOutcome
  map : CollectorMap
  calls : List CollectorMap
deriving DecidableEq, Repr

/-- The `for { if !k.restartWatch(...) { return nil } }` loop of `Watch`:
run sessions until one reports `false`. -/
def sessionsRun (m : CollectorMap) : List SessionInput → LoopResult
  | [] => ⟨.stillRunning, m, []⟩
  | s :: rest =>
    let r := restartWatch m s
    match r.again with
    | none => ⟨.stillRunning, r.map, r.calls⟩
    | some false => ⟨.returned none, r.map, r.calls⟩
    | some true =>
      let r2 := sessionsRun r.map rest
      ⟨r2.outcome, r2.map, r.calls ++ r2.calls⟩

/-- Result of the bootstrap pod listing: failure or a list of pods. -/
inductive ListResult where
  | fail
  | ok (pods : List Pod)
deriving DecidableEq, Repr

/-- Body of the bootstrap `for` loop in `Watch`: a pod without a deletion
timestamp is added to the map keyed by its name, a marked pod is skipped. -/
def bootStep (m : CollectorMap) (pod : Pod) : CollectorMap :=
  if pod.deletionTimestamp = none then mapInsert m pod.name (NewCollector pod.name)
  else m

/-- The initial membership set built by `Watch` from the bootstrap listing. -/
def initialMap (pods : List Pod) : CollectorMap :=
  pods.foldl bootStep []

/-- Observable outcome of a `Watch` call. -/
structure WatchResult where
  outcome : WatchOutcome
  map : CollectorMap
  calls : List CollectorMap
deriving DecidableEq, Repr

/-- `Client.Watch` from the source: list pods (on error `os.Exit(1)`),
build the initial map skipping pods marked for deletion, invoke `fn` once
with it, then loop over watch sessions until one reports `false`, and
return `nil`. -/
def ClientWatch (listRes : ListResult) (sessions : List SessionInput) : WatchResult :=
  match listRes with
  | .fail => ⟨.processExit, [], []⟩
  | .ok pods =>
    let m := initialMap pods
    let r := sessionsRun m sessions
    ⟨r.outcome, r.map, m :: r.calls⟩

lemma mapLookup_foldl_bootStep (pods : List Pod) (m : CollectorMap) (nm : String) :
    mapLookup (pods.foldl bootStep m) nm =
      if ∃ p ∈ pods, p.name = nm ∧ p.deletionTimestamp = none then some (NewCollector nm)
      else mapLookup m nm := by
  induction pods generalizing m with
  | nil => simp
  | cons p tl ih =>
    have hsplit : (∃ q ∈ p :: tl, q.name = nm ∧ q.deletionTimestamp = none) ↔
        ((p.name = nm ∧ p.deletionTimestamp = none) ∨
          ∃ q ∈ tl, q.name = nm ∧ q.deletionTimestamp = none) := by
      constructor
      · rintro ⟨q, hq, hqc⟩
        rcases List.mem_cons.mp hq with hqp | hqtl
        · left; rw [← hqp]; exact hqc
        · right; exact ⟨q, hqtl, hqc⟩
      · rintro (hp | ⟨q, hq, hqc⟩)
        · exact ⟨p, List.mem_cons_self p tl, hp⟩
        · exact ⟨q, List.mem_cons_of_mem p hq, hqc⟩
    rw [List.foldl_cons, ih]
    simp only [hsplit]
    by_cases htl : ∃ q ∈ tl, q.name = nm ∧ q.deletionTimestamp = none
    · simp [htl]
    · by_cases hph : p.name = nm ∧ p.deletionTimestamp = none
      · rw [if_neg htl, if_pos (Or.inl hph)]
        rw [bootStep, if_pos hph.2, mapLookup_mapInsert,
          if_pos hph.1.symm, hph.1]
      · rw [if_neg htl, if_neg (fun hor => hor.elim hph htl)]
        by_cases hp : p.deletionTimestamp = none
        · have hn : ¬ p.name = nm := fun hh => hph ⟨hh, hp⟩
          rw [bootStep, if_pos hp, mapLookup_mapInsert,
            if_neg (fun hh => hn hh.symm)]
        · rw [bootStep, if_neg hp]

lemma runWatch_append (pre post : List Wake) (m : CollectorMap)
    (h : (runWatch m pre).signal = none) :
    (runWatch m (pre ++ post)).map = (runWatch (runWatch m pre).map post).map ∧
    (runWatch m (pre ++ post)).calls =
      (runWatch m pre).calls ++ (runWatch (runWatch m pre).map post).calls ∧
    (runWatch m (pre ++ post)).signal = (runWatch (runWatch m pre).map post).signal := by
  induction pre generalizing m with
  | nil => simp [runWatch]
  | cons w tl ih =>
    cases w with
    | closeSignal => simp [runWatch] at h
    | ctxDone => simp [runWatch] at h
    | chanClosed => simp [runWatch] at h
    | ev e =>
      obtain ⟨t, obj⟩ := e
      cases obj with
      | nonPod => simp [runWatch] at h
      | pod p =>
        have h2 : (runWatch (applyEvent m t p) tl).signal = none := by
          simpa [runWatch] using h
        have hih := ih (applyEvent m t p) h2
        simp [runWatch, hih.1, hih.2.1, hih.2.2]

lemma sessionsRun_outcome_cases (ss : List SessionInput) (m : CollectorMap) :
    (sessionsRun m ss).outcome = WatchOutcome.returned none ∨
    (sessionsRun m ss).outcome = WatchOutcome.stillRunning := by
  induction ss generalizing m with
  | nil => right; rfl
  | cons s rest ih =>
    cases hs : (restartWatch m s).again with
    | none => right; simp [sessionsRun, hs]
    | some b =>
      cases b with
      | false => left; simp [sessionsRun, hs]
      | true => simpa [sessionsRun, hs] using ih (restartWatch m s).map

/-- Claim C1: for every Added event carrying a pod, the event processor
inserts (or overwrites) the entry keyed by the pod's name into the
membership set and then invokes `fn` with that set; for every Deleted
event it removes the entry keyed by the pod's name and then invokes `fn`
with the set. The two `mapLookup` equations make the insert/overwrite and
remove semantics explicit on every key. -/
theorem runWatch_added_deleted_step (m : CollectorMap) (p : Pod)
    (rest : List Wake) (q : String) :
    (runWatch m (Wake.ev ⟨EventType.Added, EventObject.pod p⟩ :: rest)).calls =
      mapInsert m p.name (NewCollector p.name) ::
        (runWatch (mapInsert m p.name (NewCollector p.name)) rest).calls ∧
    mapLookup (mapInsert m p.name (NewCollector p.name)) q =
      (if q = p.name then some (NewCollector p.name) else mapLookup m q) ∧
    (runWatch m (Wake.ev ⟨EventType.Deleted, EventObject.pod p⟩ :: rest)).calls =
      mapErase m p.name :: (runWatch (mapErase m p.name) rest).calls ∧
    mapLookup (mapErase m p.name) q = (if q = p.name then none else mapLookup m q) :=
  ⟨rfl, mapLookup_mapInsert m p.name (NewCollector p.name) q, rfl,
    mapLookup_mapErase m p.name q⟩

/-- Claim C2: the initial membership set contains exactly the listed pods
without a deletion timestamp, keyed by name: a name is mapped (to the
collector of that name) iff some listed pod carries that name with no
deletion marker, so every marked replica is excluded and every unmarked
listed replica is included. -/
theorem initialMap_membership (pods : List Pod) (nm : String) :
    mapLookup (initialMap pods) nm =
      if ∃ p ∈ pods, p.name = nm ∧ p.deletionTimestamp = none
      then some (NewCollector nm) else none := by
  have hfold := mapLookup_foldl_bootStep pods [] nm
  simpa [initialMap, mapLookup] using hfold

/-- Claim C3: `Watch` invokes the callback with the initial membership set
exactly once after bootstrap and before any watch session runs: the full
callback trace is the initial set followed by exactly the session-loop
callbacks, with zero sessions the trace is that single invocation, and
this holds for the empty set as well. -/
theorem watch_bootstrap_callback_once (pods : List Pod)
    (sessions : List SessionInput) :
    (ClientWatch (ListResult.ok pods) sessions).calls =
      initialMap pods :: (sessionsRun (initialMap pods) sessions).calls ∧
    (ClientWatch (ListResult.ok pods) []).calls = [initialMap pods] ∧
    (ClientWatch (ListResult.ok []) []).calls = [[]] :=
  ⟨rfl, rfl, rfl⟩

/-- Claim C4: once the close signal fires, the event processor's next
wake-up returns the non-empty reason "kubernetes client closed", the
session reports terminal (`again = some false`), the session loop stops,
and `Watch` returns `nil`; no callback is invoked past that point. -/
theorem close_terminates_watch (pods : List Pod) (s : Nat) (pre ws : List Wake)
    (rest : List SessionInput)
    (h : (runWatch (initialMap pods) pre).signal = none) :
    (runWatch (runWatch (initialMap pods) pre).map (Wake.closeSignal :: ws)).signal =
      some "kubernetes client closed" ∧
    "kubernetes client closed" ≠ "" ∧
    (runWatch (runWatch (initialMap pods) pre).map (Wake.closeSignal :: ws)).calls = [] ∧
    (restartWatch (initialMap pods)
      (SessionInput.session s (pre ++ Wake.closeSignal :: ws))).again = some false ∧
    (ClientWatch (ListResult.ok pods)
      (SessionInput.session s (pre ++ Wake.closeSignal :: ws) :: rest)).outcome =
      WatchOutcome.returned none ∧
    (ClientWatch (ListResult.ok pods)
      (SessionInput.session s (pre ++ Wake.closeSignal :: ws) :: rest)).calls =
      initialMap pods :: (runWatch (initialMap pods) pre).calls := by
  obtain ⟨hmap, hcalls, hsig⟩ :=
    runWatch_append pre (Wake.closeSignal :: ws) (initialMap pods) h
  have hsig2 : (runWatch (initialMap pods) (pre ++ Wake.closeSignal :: ws)).signal =
      some "kubernetes client closed" := by rw [hsig]; rfl
  have hcalls2 : (runWatch (initialMap pods) (pre ++ Wake.closeSignal :: ws)).calls =
      (runWatch (initialMap pods) pre).calls := by rw [hcalls]; simp [runWatch]
  refine ⟨rfl, by decide, rfl, ?_, ?_, ?_⟩
  · simp [restartWatch, hsig2]
  · simp [ClientWatch, sessionsRun, restartWatch, hsig2]
  · simp [ClientWatch, sessionsRun, restartWatch, hsig2, hcalls2]

/-- Witness for C4 at a concrete input: empty bootstrap listing, empty
prefix, close signal as the first wake of the only session. -/
theorem close_terminates_watch_witness :
    (runWatch (initialMap []) []).signal = none ∧
    ((runWatch (runWatch (initialMap []) []).map (Wake.closeSignal :: [])).signal =
      some "kubernetes client closed" ∧
    "kubernetes client closed" ≠ "" ∧
    (runWatch (runWatch (initialMap []) []).map (Wake.closeSignal :: [])).calls = [] ∧
    (restartWatch (initialMap [])
      (SessionInput.session 0 ([] ++ Wake.closeSignal :: []))).again = some false ∧
    (ClientWatch (ListResult.ok [])
      (SessionInput.session 0 ([] ++ Wake.closeSignal :: []) :: [])).outcome =
      WatchOutcome.returned none ∧
    (ClientWatch (ListResult.ok [])
      (SessionInput.session 0 ([] ++ Wake.closeSignal :: []) :: [])).calls =
      initialMap [] :: (runWatch (initialMap []) []).calls) :=
  ⟨by decide, close_terminates_watch [] 0 [] [] [] (by decide)⟩

/-- Claim C5: when the event channel closes and `Close()` was not
signalled, the processor returns the empty (non-terminal) signal, the
session reports `again = some true` with the membership set it
accumulated, and the session loop proceeds into the next session carrying
that set unchanged instead of returning. -/
theorem chanClosed_reconnects (m : CollectorMap) (pre : List Wake) (s : Nat)
    (sessions : List SessionInput)
    (h : (runWatch m pre).signal = none) :
    (runWatch m (pre ++ [Wake.chanClosed])).signal = some "" ∧
    (restartWatch m (SessionInput.session s (pre ++ [Wake.chanClosed]))).again =
      some true ∧
    (restartWatch m (SessionInput.session s (pre ++ [Wake.chanClosed]))).map =
      (runWatch m pre).map ∧
    (sessionsRun m (SessionInput.session s (pre ++ [Wake.chanClosed]) :: sessions)).outcome =
      (sessionsRun (runWatch m pre).map sessions).outcome ∧
    (sessionsRun m (SessionInput.session s (pre ++ [Wake.chanClosed]) :: sessions)).map =
      (sessionsRun (runWatch m pre).map sessions).map ∧
    (sessionsRun m (SessionInput.session s (pre ++ [Wake.chanClosed]) :: sessions)).calls =
      (runWatch m pre).calls ++ (sessionsRun (runWatch m pre).map sessions).calls := by
  obtain ⟨hmap, hcalls, hsig⟩ := runWatch_append pre [Wake.chanClosed] m h
  have hsig2 : (runWatch m (pre ++ [Wake.chanClosed])).signal = some "" := by
    rw [hsig]; rfl
  have hmap2 : (runWatch m (pre ++ [Wake.chanClosed])).map = (runWatch m pre).map := by
    rw [hmap]; rfl
  have hcalls2 : (runWatch m (pre ++ [Wake.chanClosed])).calls =
      (runWatch m pre).calls := by rw [hcalls]; simp [runWatch]
  refine ⟨hsig2, ?_, ?_, ?_, ?_, ?_⟩ <;>
    simp [sessionsRun, restartWatch, hsig2, hmap2, hcalls2]

/-- Witness for C5 at a concrete input: one Added event for pod p1, then
the channel closes; no further sessions. -/
theorem chanClosed_reconnects_witness :
    (runWatch [] [Wake.ev ⟨EventType.Added, EventObject.pod ⟨"p1", none⟩⟩]).signal = none ∧
    ((runWatch [] ([Wake.ev ⟨EventType.Added, EventObject.pod ⟨"p1", none⟩⟩] ++
        [Wake.chanClosed])).signal = some "" ∧
    (restartWatch [] (SessionInput.session 0
      ([Wake.ev ⟨EventType.Added, EventObject.pod ⟨"p1", none⟩⟩] ++
        [Wake.chanClosed]))).again = some true ∧
    (restartWatch [] (SessionInput.session 0
      ([Wake.ev ⟨EventType.Added, EventObject.pod ⟨"p1", none⟩⟩] ++
        [Wake.chanClosed]))).map =
      (runWatch [] [Wake.ev ⟨EventType.Added, EventObject.pod ⟨"p1", none⟩⟩]).map ∧
    (sessionsRun [] (SessionInput.session 0
      ([Wake.ev ⟨EventType.Added, EventObject.pod ⟨"p1", none⟩⟩] ++
        [Wake.chanClosed]) :: [])).outcome =
      (sessionsRun (runWatch []
        [Wake.ev ⟨EventType.Added, EventObject.pod ⟨"p1", none⟩⟩]).map []).outcome ∧
    (sessionsRun [] (SessionInput.session 0
      ([Wake.ev ⟨EventType.Added, EventObject.pod ⟨"p1", none⟩⟩] ++
        [Wake.chanClosed]) :: [])).map =
      (sessionsRun (runWatch []
        [Wake.ev ⟨EventType.Added, EventObject.pod ⟨"p1", none⟩⟩]).map []).map ∧
    (sessionsRun [] (SessionInput.session 0
      ([Wake.ev ⟨EventType.Added, EventObject.pod ⟨"p1", none⟩⟩] ++
        [Wake.chanClosed]) :: [])).calls =
      (runWatch [] [Wake.ev ⟨EventType.Added, EventObject.pod ⟨"p1", none⟩⟩]).calls ++
      (sessionsRun (runWatch []
        [Wake.ev ⟨EventType.Added, EventObject.pod ⟨"p1", none⟩⟩]).map []).calls) :=
  ⟨by decide, chanClosed_reconnects []
    [Wake.ev ⟨EventType.Added, EventObject.pod ⟨"p1", none⟩⟩] 0 [] (by decide)⟩

/-- Claim C6: when the bootstrap listing fails, the process terminates
(`os.Exit(1)`): `Watch` performs no callback and never returns the listing
error — indeed `Watch` can only exit the process, return `nil`, or still
be running; it never returns any error value. -/
theorem bootstrap_failure_exits (sessions : List SessionInput) :
    ClientWatch ListResult.fail sessions =
      ⟨WatchOutcome.processExit, [], []⟩ ∧
    ∀ lr ss, (ClientWatch lr ss).outcome = WatchOutcome.processExit ∨
      (ClientWatch lr ss).outcome = WatchOutcome.returned none ∨
      (ClientWatch lr ss).outcome = WatchOutcome.stillRunning := by
  refine ⟨rfl, ?_⟩
  intro lr ss
  cases lr with
  | fail => left; rfl
  | ok pods =>
    right
    simpa [ClientWatch] using sessionsRun_outcome_cases ss (initialMap pods)

/-- Claim C7: when opening the watch subscription fails, the session
reports terminal, the session loop stops without attempting the remaining
sessions (the result does not depend on `rest`), and `Watch` returns
`nil` having invoked the callback only with the initial set. -/
theorem session_establish_failure_stops (m : CollectorMap) (pods : List Pod)
    (s : Nat) (rest : List SessionInput) :
    restartWatch m (SessionInput.watchFail s) =
      ⟨s + watcherTimeout, some false, m, []⟩ ∧
    sessionsRun m (SessionInput.watchFail s :: rest) =
      ⟨WatchOutcome.returned none, m, []⟩ ∧
    (ClientWatch (ListResult.ok pods) (SessionInput.watchFail s :: rest)).outcome =
      WatchOutcome.returned none ∧
    (ClientWatch (ListResult.ok pods) (SessionInput.watchFail s :: rest)).calls =
      [initialMap pods] :=
  ⟨rfl, rfl, rfl, rfl⟩

/-- Claim C8: the session timeout is exactly 15 minutes; the session
context's deadline is session start plus that timeout for every session
input (the deadline exists even when the subscription then fails, since
`context.WithTimeout` runs first); context expiry returns the non-terminal
empty signal with the set and callback trace untouched, and the loop then
opens the next session from the same membership set. -/
theorem session_timeout_bounds (m : CollectorMap) (inp : SessionInput) (s : Nat)
    (ws : List Wake) (rest : List SessionInput) :
    watcherTimeout = 15 * timeMinute ∧
    watcherTimeout = 900 * timeSecond ∧
    (restartWatch m inp).ctxDeadline = inp.start + watcherTimeout ∧
    (runWatch m (Wake.ctxDone :: ws)).signal = some "" ∧
    (runWatch m (Wake.ctxDone :: ws)).map = m ∧
    (runWatch m (Wake.ctxDone :: ws)).calls = [] ∧
    sessionsRun m (SessionInput.session s (Wake.ctxDone :: ws) :: rest) =
      sessionsRun m rest := by
  refine ⟨rfl, by norm_num [watcherTimeout, timeMinute, timeSecond], ?_, rfl, rfl, rfl, ?_⟩
  · cases inp with
    | watchFail s2 => rfl
    | session s2 ws2 =>
      cases hsg : (runWatch m ws2).signal with
      | none => simp [restartWatch, SessionInput.start, hsg]
      | some msg =>
        by_cases hm : msg = "" <;> simp [restartWatch, SessionInput.start, hsg, hm]
  · simp [sessionsRun, restartWatch, runWatch]

/-- Claim C9: a Modified event leaves the membership set unchanged — the
switch mutates nothing for it, and the loop continues from the same set
(the callback still receives the unchanged set). -/
theorem modified_event_noop (m : CollectorMap) (p : Pod) (rest : List Wake) :
    applyEvent m EventType.Modified p = m ∧
    runWatch m (Wake.ev ⟨EventType.Modified, EventObject.pod p⟩ :: rest) =
      ⟨(runWatch m rest).map, m.length :: (runWatch m rest).gauges,
        m :: (runWatch m rest).calls, (runWatch m rest).signal⟩ :=
  ⟨rfl, rfl⟩

/-- Claim C10: every event whose object is a pod — whatever its type,
including Modified, Bookmark and Error — is followed by a callback
invocation carrying the (possibly unmutated) membership set. -/
theorem pod_event_always_calls_back (m : CollectorMap) (t : EventType) (p : Pod)
    (rest : List Wake) :
    (runWatch m (Wake.ev ⟨t, EventObject.pod p⟩ :: rest)).calls =
      applyEvent m t p :: (runWatch (applyEvent m t p) rest).calls ∧
    (runWatch m (Wake.ev ⟨t, EventObject.pod p⟩ :: rest)).calls.head? =
      some (applyEvent m t p) :=
  ⟨rfl, rfl⟩

end AllocatorWatch
